import Mathlib

/-!
Verification of the streaming ZIP reader (rs-async-zip core).

This file shallowly embeds the record codecs, the extra-field parser, the
streaming central-directory reader, the byte-counting adapter and the
data-descriptor consumption logic of the streaming entry reader, and proves
or refutes the specified properties about them.

Bytes are modelled as natural numbers; byte streams as lists.  Fallible
operations return an Except value over the ZipError taxonomy.  Functions
keep the names of the Rust source where Lean allows it.
-/

/-- Little-endian interpretation of a byte list (first byte least significant),
mirroring the uXX from_le_bytes calls of the source. -/
def leNum : List Nat → Nat
  | [] => 0
  | b :: bs => b + 256 * leNum bs

/-- Decode a little-endian scalar of the given width at the given offset of a
byte slab, mirroring slice-and-from_le_bytes in the record codecs. -/
def sliceLe (b : List Nat) (off len : Nat) : Nat :=
  leNum ((b.drop off).take len)

/-- Sentinel for 32-bit fields promoted via ZIP64 (spec/consts.rs). -/
def NON_ZIP64_MAX_SIZE : Nat := 0xFFFFFFFF

/-- Central directory header signature (spec/consts.rs). -/
def CDH_SIGNATURE : Nat := 0x02014B50

/-- End of central directory record signature (spec/consts.rs). -/
def EOCDR_SIGNATURE : Nat := 0x06054B50

/-- ZIP64 end of central directory record signature (spec/consts.rs). -/
def ZIP64_EOCDR_SIGNATURE : Nat := 0x06064B50

/-- ZIP64 end of central directory locator signature (spec/consts.rs). -/
def ZIP64_EOCDL_SIGNATURE : Nat := 0x07064B50

/-- Data descriptor signature (spec/consts.rs). -/
def DATA_DESCRIPTOR_SIGNATURE : Nat := 0x08074B50

/-- The little-endian byte rendering of the data descriptor signature,
as compared against raw buffers by the source. -/
def DATA_DESCRIPTOR_SIGNATURE_BYTES : List Nat := [0x50, 0x4B, 0x07, 0x08]

/-- Length of a record signature in bytes (spec/consts.rs). -/
def SIGNATURE_LENGTH : Nat := 4

/-- Length of a legacy data descriptor body, signature excluded (spec/consts.rs). -/
def DATA_DESCRIPTOR_LENGTH : Nat := 12

/-- Length of a ZIP64 data descriptor body, signature excluded (spec/consts.rs). -/
def ZIP64_DATA_DESCRIPTOR_LENGTH : Nat := 20

/-- The error taxonomy of the reader (the ZipError variants reachable from the
embedded code; ioError stands for an underlying-source failure or premature
EOF during a read_exact). -/
inductive ZipError where
  | ioError : ZipError
  | unexpectedHeader (found expected : Nat) : ZipError
  | eofNotReached : ZipError
  | missingZip64EndOfCentralDirectoryLocator : ZipError
  | invalidZip64EndOfCentralDirectoryLocatorOffset (found expected : Nat) : ZipError
  | invalidExtraFieldHeader (fieldSize : Nat) : ZipError
  | duplicateExtraFieldHeader (id : Nat) : ZipError
  | zip64ExtendedInformationFieldTooLong (expected actual : Nat) : ZipError
  | infoZipUnicodeCommentFieldIncomplete : ZipError
  | infoZipUnicodePathFieldIncomplete : ZipError
  deriving DecidableEq, Repr

/-- The ZIP64 extended information extra field (spec/header.rs shape as used by
spec/extra_field.rs): each candidate 64-bit value is optional. -/
structure Zip64ExtendedInformationExtraField where
  uncompressed_size : Option Nat
  compressed_size : Option Nat
  relative_header_offset : Option Nat
  disk_start_number : Option Nat
  deriving DecidableEq, Repr

/-- The conditional reading phase of zip64_extended_information_field_from_bytes
(src/spec/extra_field.rs lines 22-55): candidate fields are attempted in the
fixed order uncompressed, compressed, offset, disk-start, each read only when
the owning header field is the sentinel and enough bytes remain; the second
component is the final current_idx (bytes consumed). -/
def zip64Fields (header_uncompressed_size header_compressed_size : Nat)
    (header_relative_header_offset : Option Nat) (header_disk_start_number : Option Nat)
    (data : List Nat) : Zip64ExtendedInformationExtraField × Nat :=
  let s1 : Option Nat × Nat :=
    if header_uncompressed_size = NON_ZIP64_MAX_SIZE ∧ 0 + 8 ≤ data.length then
      (some (sliceLe data 0 8), 0 + 8)
    else (none, 0)
  let s2 : Option Nat × Nat :=
    if header_compressed_size = NON_ZIP64_MAX_SIZE ∧ s1.2 + 8 ≤ data.length then
      (some (sliceLe data s1.2 8), s1.2 + 8)
    else (none, s1.2)
  let s3 : Option Nat × Nat :=
    if header_relative_header_offset = some NON_ZIP64_MAX_SIZE ∧ s2.2 + 8 ≤ data.length then
      (some (sliceLe data s2.2 8), s2.2 + 8)
    else (none, s2.2)
  let s4 : Option Nat × Nat :=
    if header_disk_start_number = some 0xFFFF ∧ s3.2 + 4 ≤ data.length then
      (some (sliceLe data s3.2 4), s3.2 + 4)
    else (none, s3.2)
  (⟨s1.1, s2.1, s3.1, s4.1⟩, s4.2)

/-- Parse a zip64 extra field from bytes (src/spec/extra_field.rs lines 13-87):
the conditional reading phase, then either the exact-consumption success, the
16-byte bug-compatible fallback, or the too-long error. -/
def zip64_extended_information_field_from_bytes (header_uncompressed_size header_compressed_size : Nat)
    (header_relative_header_offset : Option Nat) (header_disk_start_number : Option Nat)
    (data : List Nat) : Except ZipError Zip64ExtendedInformationExtraField :=
  let r := zip64Fields header_uncompressed_size header_compressed_size
    header_relative_header_offset header_disk_start_number data
  if r.2 ≠ data.length then
    if r.2 = 0 ∧ data.length = 16 then
      let uncompressed_size := sliceLe data 0 8
      let compressed_size := sliceLe data 8 8
      if uncompressed_size = header_uncompressed_size ∧ compressed_size = header_compressed_size
          ∧ header_relative_header_offset = none ∧ header_disk_start_number = none then
        .ok ⟨some uncompressed_size, some compressed_size, none, none⟩
      else
        .error (.zip64ExtendedInformationFieldTooLong data.length r.2)
    else
      .error (.zip64ExtendedInformationFieldTooLong data.length r.2)
  else
    .ok r.1

/-- The InfoZIP Unicode comment extra field (spec/header.rs shape). -/
inductive InfoZipUnicodeCommentExtraField where
  | v1 (crc32 : Nat) (unicode : List Nat) : InfoZipUnicodeCommentExtraField
  | unknown (version : Nat) (data : List Nat) : InfoZipUnicodeCommentExtraField
  deriving DecidableEq, Repr

/-- The InfoZIP Unicode path extra field (spec/header.rs shape). -/
inductive InfoZipUnicodePathExtraField where
  | v1 (crc32 : Nat) (unicode : List Nat) : InfoZipUnicodePathExtraField
  | unknown (version : Nat) (data : List Nat) : InfoZipUnicodePathExtraField
  deriving DecidableEq, Repr

/-- The tagged union of extra fields (spec/header.rs): ZIP64 extended
information, the two InfoZIP Unicode overrides, and the unknown fallback
carrying the raw id, declared size and content. -/
inductive ExtraField where
  | zip64ExtendedInformation (f : Zip64ExtendedInformationExtraField) : ExtraField
  | infoZipUnicodeComment (f : InfoZipUnicodeCommentExtraField) : ExtraField
  | infoZipUnicodePath (f : InfoZipUnicodePathExtraField) : ExtraField
  | unknown (header_id : Nat) (data_size : Nat) (content : List Nat) : ExtraField
  deriving DecidableEq, Repr

/-- Header id of the ZIP64 extended information extra field. -/
def ZIP64_EXTENDED_INFORMATION_EXTRA_FIELD : Nat := 0x0001

/-- Header id of the InfoZIP Unicode comment extra field. -/
def INFO_ZIP_UNICODE_COMMENT_EXTRA_FIELD : Nat := 0x6375

/-- Header id of the InfoZIP Unicode path extra field. -/
def INFO_ZIP_UNICODE_PATH_EXTRA_FIELD : Nat := 0x7075

/-- The header_id capability of an extra field: each variant exposes its id
(the known variants their canonical id, the unknown variant its stored id). -/
def ExtraField.header_id : ExtraField → Nat
  | .zip64ExtendedInformation _ => ZIP64_EXTENDED_INFORMATION_EXTRA_FIELD
  | .infoZipUnicodeComment _ => INFO_ZIP_UNICODE_COMMENT_EXTRA_FIELD
  | .infoZipUnicodePath _ => INFO_ZIP_UNICODE_PATH_EXTRA_FIELD
  | .unknown id _ _ => id

/-- info_zip_unicode_comment_extra_field_from_bytes (src/spec/extra_field.rs
lines 89-109): first byte is a version; version 1 carries a CRC32 and the
UTF-8 replacement, other versions are retained verbatim; an empty payload is
incomplete. -/
def info_zip_unicode_comment_extra_field_from_bytes (data_size : Nat) (data : List Nat) :
    Except ZipError InfoZipUnicodeCommentExtraField :=
  match data with
  | [] => .error .infoZipUnicodeCommentFieldIncomplete
  | version :: _ =>
    if version = 1 then
      if data.length < 5 then .error .infoZipUnicodeCommentFieldIncomplete
      else .ok (.v1 (sliceLe data 1 4) ((data.take data_size).drop 5))
    else .ok (.unknown version ((data.take data_size).drop 1))

/-- info_zip_unicode_path_extra_field_from_bytes (src/spec/extra_field.rs
lines 111-131): same shape as the comment variant. -/
def info_zip_unicode_path_extra_field_from_bytes (data_size : Nat) (data : List Nat) :
    Except ZipError InfoZipUnicodePathExtraField :=
  match data with
  | [] => .error .infoZipUnicodePathFieldIncomplete
  | version :: _ =>
    if version = 1 then
      if data.length < 5 then .error .infoZipUnicodePathFieldIncomplete
      else .ok (.v1 (sliceLe data 1 4) ((data.take data_size).drop 5))
    else .ok (.unknown version ((data.take data_size).drop 1))

/-- extra_field_from_bytes (src/spec/extra_field.rs lines 133-161): dispatch on
the header id. -/
def extra_field_from_bytes (header_id : Nat) (data_size : Nat) (data : List Nat)
    (uncompressed_size compressed_size : Nat)
    (relative_header_offset : Option Nat) (disk_start_number : Option Nat) :
    Except ZipError ExtraField :=
  if header_id = ZIP64_EXTENDED_INFORMATION_EXTRA_FIELD then
    (zip64_extended_information_field_from_bytes uncompressed_size compressed_size
      relative_header_offset disk_start_number data).map .zip64ExtendedInformation
  else if header_id = INFO_ZIP_UNICODE_COMMENT_EXTRA_FIELD then
    (info_zip_unicode_comment_extra_field_from_bytes data_size data).map .infoZipUnicodeComment
  else if header_id = INFO_ZIP_UNICODE_PATH_EXTRA_FIELD then
    (info_zip_unicode_path_extra_field_from_bytes data_size data).map .infoZipUnicodePath
  else
    .ok (.unknown header_id data_size data)

/-- One structural-recursion pass of the parse_extra_fields loop
(src/spec/parse.rs lines 267-307).  The loop runs while at least 4 bytes (a
full id+size prefix) remain; rem is the unconsumed suffix of the blob.  The
fuel argument only bounds the number of iterations (each iteration consumes
at least 4 bytes, so any fuel at least the blob length is sufficient) and
makes the recursion structural. -/
def parseLoop (uncompressed_size compressed_size : Nat)
    (relative_header_offset : Option Nat) (disk_start_number : Option Nat) :
    Nat → List Nat → List ExtraField → Except ZipError (List ExtraField)
  | 0, _, extra_fields => .ok extra_fields
  | fuel + 1, rem, extra_fields =>
    if 4 ≤ rem.length then
      let header_id := sliceLe rem 0 2
      let field_size := sliceLe rem 2 2
      if rem.length < 4 + field_size then .error (.invalidExtraFieldHeader field_size)
      else
        match extra_field_from_bytes header_id field_size ((rem.drop 4).take field_size)
            uncompressed_size compressed_size relative_header_offset disk_start_number with
        | .error e => .error e
        | .ok extra_field =>
          if extra_fields.any (fun seen => seen.header_id = extra_field.header_id) then
            .error (.duplicateExtraFieldHeader header_id)
          else
            parseLoop uncompressed_size compressed_size relative_header_offset disk_start_number
              fuel (rem.drop (4 + field_size)) (extra_fields ++ [extra_field])
    else .ok extra_fields

/-- parse_extra_fields (src/spec/parse.rs lines 267-307): walk the blob as TLV
records, decoding each and rejecting duplicates; trailing bytes shorter than a
TLV prefix are left unparsed. -/
def parse_extra_fields (data : List Nat) (uncompressed_size compressed_size : Nat)
    (relative_header_offset : Option Nat) (disk_start_number : Option Nat) :
    Except ZipError (List ExtraField) :=
  parseLoop uncompressed_size compressed_size relative_header_offset disk_start_number
    data.length data []

/-- The four general-purpose flag booleans decoded from the flags word
(src/spec/parse.rs lines 29-37). -/
structure GeneralPurposeFlag where
  encrypted : Bool
  data_descriptor : Bool
  filename_unicode : Bool
  deriving DecidableEq, Repr

/-- Decode a general purpose flag word (src/spec/parse.rs lines 29-37): bit 0
is encrypted, bit 3 is data-descriptor-follows, bit 11 is filename-is-UTF-8. -/
def generalPurposeFlagFromWord (value : Nat) : GeneralPurposeFlag :=
  { encrypted := value % 2 ≠ 0
    data_descriptor := value / 8 % 2 ≠ 0
    filename_unicode := value / 2048 % 2 ≠ 0 }

/-- The 42-byte central directory record body (spec/header.rs shape). -/
structure CentralDirectoryRecord where
  v_made_by : Nat
  v_needed : Nat
  flags : GeneralPurposeFlag
  compression : Nat
  mod_time : Nat
  mod_date : Nat
  crc : Nat
  compressed_size : Nat
  uncompressed_size : Nat
  file_name_length : Nat
  extra_field_length : Nat
  file_comment_length : Nat
  disk_start : Nat
  inter_attr : Nat
  exter_attr : Nat
  lh_offset : Nat
  deriving DecidableEq, Repr

/-- Decode a 42-byte central directory record body (src/spec/parse.rs
lines 39-60). -/
def centralDirectoryRecordFromBytes (value : List Nat) : CentralDirectoryRecord :=
  { v_made_by := sliceLe value 0 2
    v_needed := sliceLe value 2 2
    flags := generalPurposeFlagFromWord (sliceLe value 4 2)
    compression := sliceLe value 6 2
    mod_time := sliceLe value 8 2
    mod_date := sliceLe value 10 2
    crc := sliceLe value 12 4
    compressed_size := sliceLe value 16 4
    uncompressed_size := sliceLe value 20 4
    file_name_length := sliceLe value 24 2
    extra_field_length := sliceLe value 26 2
    file_comment_length := sliceLe value 28 2
    disk_start := sliceLe value 30 2
    inter_attr := sliceLe value 32 2
    exter_attr := sliceLe value 34 4
    lh_offset := sliceLe value 38 4 }

/-- The 18-byte end of central directory record body (spec/header.rs shape). -/
structure EndOfCentralDirectoryHeader where
  disk_num : Nat
  start_cent_dir_disk : Nat
  num_of_entries_disk : Nat
  num_of_entries : Nat
  size_cent_dir : Nat
  cent_dir_offset : Nat
  file_comm_length : Nat
  deriving DecidableEq, Repr

/-- Decode an 18-byte end of central directory record body (src/spec/parse.rs
lines 62-74). -/
def endOfCentralDirectoryHeaderFromBytes (value : List Nat) : EndOfCentralDirectoryHeader :=
  { disk_num := sliceLe value 0 2
    start_cent_dir_disk := sliceLe value 2 2
    num_of_entries_disk := sliceLe value 4 2
    num_of_entries := sliceLe value 6 2
    size_cent_dir := sliceLe value 8 4
    cent_dir_offset := sliceLe value 12 4
    file_comm_length := sliceLe value 16 2 }

/-- The 52-byte ZIP64 end of central directory record body (spec/header.rs
shape). -/
structure Zip64EndOfCentralDirectoryRecord where
  size_of_zip64_end_of_cd_record : Nat
  version_made_by : Nat
  version_needed_to_extract : Nat
  disk_number : Nat
  disk_number_start_of_cd : Nat
  num_entries_in_directory_on_disk : Nat
  num_entries_in_directory : Nat
  directory_size : Nat
  offset_of_start_of_directory : Nat
  deriving DecidableEq, Repr

/-- Decode a 52-byte ZIP64 end of central directory record body
(src/spec/parse.rs lines 76-90). -/
def zip64EndOfCentralDirectoryRecordFromBytes (value : List Nat) : Zip64EndOfCentralDirectoryRecord :=
  { size_of_zip64_end_of_cd_record := sliceLe value 0 8
    version_made_by := sliceLe value 8 2
    version_needed_to_extract := sliceLe value 10 2
    disk_number := sliceLe value 12 4
    disk_number_start_of_cd := sliceLe value 16 4
    num_entries_in_directory_on_disk := sliceLe value 20 8
    num_entries_in_directory := sliceLe value 28 8
    directory_size := sliceLe value 36 8
    offset_of_start_of_directory := sliceLe value 44 8 }

/-- The 16-byte ZIP64 end of central directory locator body (spec/header.rs
shape). -/
structure Zip64EndOfCentralDirectoryLocator where
  number_of_disk_with_start_of_zip64_end_of_central_directory : Nat
  relative_offset : Nat
  total_number_of_disks : Nat
  deriving DecidableEq, Repr

/-- Decode a 16-byte ZIP64 end of central directory locator body
(src/spec/parse.rs lines 92-102). -/
def zip64EndOfCentralDirectoryLocatorFromBytes (value : List Nat) : Zip64EndOfCentralDirectoryLocator :=
  { number_of_disk_with_start_of_zip64_end_of_central_directory := sliceLe value 0 4
    relative_offset := sliceLe value 4 8
    total_number_of_disks := sliceLe value 12 4 }

/-- String encodings carried by a ZipString (src/string.rs shape per the
spec data model). -/
inductive StringEncoding where
  | utf8 : StringEncoding
  | cp437 : StringEncoding
  deriving DecidableEq, Repr

/-- A ZipString: raw bytes paired with their declared encoding (spec data
model). -/
structure ZipString where
  raw : List Nat
  encoding : StringEncoding
  deriving DecidableEq, Repr

/-- One bounded read of a take(limit) adapter over a byte source, as performed
by read_to_end: at most cap bytes are delivered, bounded by the remaining
take limit and by the bytes the source still has (EOF delivers fewer bytes,
never an error).  Returns the delivered chunk and the remaining (limit,
source) pair. -/
def takeRead (limit : Nat) (s : List Nat) (cap : Nat) : List Nat × Nat × List Nat :=
  let n := min cap (min limit s.length)
  (s.take n, limit - n, s.drop n)

/-- The read_to_end loop over a take(limit) adapter: repeatedly issue bounded
reads (chunk size 32) and concatenate the delivered bytes until a read
delivers nothing.  The fuel argument only bounds the number of iterations
(each successful read delivers at least one byte, so fuel equal to the source
length is sufficient) and makes the recursion structural. -/
def readToEndLoop : Nat → Nat → List Nat → List Nat
  | 0, _, _ => []
  | fuel + 1, limit, s =>
    if min limit s.length = 0 then []
    else
      let r := takeRead limit s 32
      r.1 ++ readToEndLoop fuel r.2.1 r.2.2

/-- read_bytes (src/base/read/io/mod.rs lines 24-33): read a dynamic length
vector of bytes by driving take(length).read_to_end over the source. -/
def read_bytes (s : List Nat) (length : Nat) : List Nat :=
  readToEndLoop s.length length s

/-- read_string (src/base/read/io/mod.rs lines 16-22): read_bytes wrapped into
a ZipString with the requested encoding. -/
def read_string (s : List Nat) (length : Nat) (encoding : StringEncoding) : ZipString :=
  ⟨read_bytes s length, encoding⟩

/-- A byte source wrapped in the byte-counting adapter: the remaining data and
the monotone bytes_read counter (src/base/read/counting.rs,
src/base/read/stream.rs lines 72-128). -/
structure CountingStream where
  data : List Nat
  bytes : Nat
  deriving DecidableEq, Repr

/-- read_exact of n bytes through the counting adapter: fails when the source
ends early, otherwise delivers exactly n bytes and advances the counter by
n. -/
def creadExact (st : CountingStream) (n : Nat) : Except ZipError (List Nat × CountingStream) :=
  if n ≤ st.data.length then .ok (st.data.take n, ⟨st.data.drop n, st.bytes + n⟩)
  else .error .ioError

/-- io::read_bytes through the counting adapter: delivers read_bytes of the
requested length (short at EOF, never failing) and advances the counter by
the number of bytes actually delivered. -/
def creadBytes (st : CountingStream) (n : Nat) : List Nat × CountingStream :=
  let chunk := read_bytes st.data n
  (chunk, ⟨st.data.drop chunk.length, st.bytes + chunk.length⟩)

/-- An entry in the central directory as produced by the streaming CD reader
(src/base/read/cd.rs lines 22-33): the three reconciled 64-bit values, the
raw header, and the filename. -/
structure CentralDirectoryEntry where
  compressed_size : Nat
  uncompressed_size : Nat
  lh_offset : Nat
  header : CentralDirectoryRecord
  filename : ZipString
  deriving DecidableEq, Repr

/-- Modelled from the spec: get_zip64_extra_field lives in src/base/read/mod.rs
which is not under src/; per the spec (section 4.3 and 4.5) it selects the
ZIP64 extended-information extra field of the owning header from the parsed
extra-field list. -/
def get_zip64_extra_field (extra_fields : List ExtraField) : Option Zip64ExtendedInformationExtraField :=
  extra_fields.findSome? fun
    | .zip64ExtendedInformation f => some f
    | _ => none

/-- Modelled from the spec: detect_filename lives in src/base/read/mod.rs which
is not under src/; per the spec (section 4.3, filename encoding selection) a
set bit 11 yields the raw bytes as UTF-8, otherwise a present InfoZIP Unicode
path override replaces the bytes, otherwise the raw bytes are CP437. -/
def detect_filename (basic : List Nat) (filename_unicode : Bool)
    (extra_fields : List ExtraField) : ZipString :=
  if filename_unicode then ⟨basic, .utf8⟩
  else
    match extra_fields.findSome? (fun
      | .infoZipUnicodePath (.v1 _ unicode) => some unicode
      | _ => none) with
    | some unicode => ⟨unicode, .utf8⟩
    | none => ⟨basic, .cp437⟩

/-- Build the central directory entry from the parsed header, filename bytes
and extra fields, reconciling the compressed size, uncompressed size and
local-header offset through ZIP64 where the 32-bit field is the sentinel
(src/base/read/cd.rs lines 187-224). -/
def cdEntryFrom (header : CentralDirectoryRecord) (filename_basic : List Nat)
    (extra_fields : List ExtraField) : CentralDirectoryEntry :=
  let zip64_extra_field := get_zip64_extra_field extra_fields
  let compressed_size :=
    match (zip64_extra_field.bind (fun z => z.compressed_size)).filter
        (fun _ => decide (header.compressed_size = NON_ZIP64_MAX_SIZE)) with
    | some v => v
    | none => header.compressed_size
  let uncompressed_size :=
    match (zip64_extra_field.bind (fun z => z.uncompressed_size)).filter
        (fun _ => decide (header.uncompressed_size = NON_ZIP64_MAX_SIZE)) with
    | some v => v
    | none => header.uncompressed_size
  let lh_offset :=
    match (zip64_extra_field.bind (fun z => z.relative_header_offset)).filter
        (fun _ => decide (header.lh_offset = NON_ZIP64_MAX_SIZE)) with
    | some v => v
    | none => header.lh_offset
  let filename := detect_filename filename_basic header.flags.filename_unicode extra_fields
  ⟨compressed_size, uncompressed_size, lh_offset, header, filename⟩

/-- Modelled from the spec: CombinedCentralDirectoryRecord lives in
src/base/read/io/combined_record.rs which is not under src/; per the spec
(section 4.5) it carries the end-of-central-directory metadata at 64-bit
widths. -/
structure CombinedCentralDirectoryRecord where
  disk_number : Nat
  disk_number_start_of_cd : Nat
  num_entries_in_directory_on_disk : Nat
  num_entries_in_directory : Nat
  directory_size : Nat
  offset_of_start_of_directory : Nat
  deriving DecidableEq, Repr

/-- Modelled from the spec: the From conversion of combined_record.rs (not
under src/); per the spec (section 4.5) the EOCDR branch returns a combined
record promoting the EOCDR fields to 64-bit widths verbatim. -/
def combinedFromEocdr (e : EndOfCentralDirectoryHeader) : CombinedCentralDirectoryRecord :=
  { disk_number := e.disk_num
    disk_number_start_of_cd := e.start_cent_dir_disk
    num_entries_in_directory_on_disk := e.num_of_entries_disk
    num_entries_in_directory := e.num_of_entries
    directory_size := e.size_cent_dir
    offset_of_start_of_directory := e.cent_dir_offset }

/-- Modelled from the spec: the combine constructor of combined_record.rs (not
under src/); per the spec (section 4.5) the returned record merges the ZIP64
EOCDR 64-bit counts and sizes (the EOCDR comment is carried alongside). -/
def combinedCombine (_eocdr : EndOfCentralDirectoryHeader)
    (zip64 : Zip64EndOfCentralDirectoryRecord) : CombinedCentralDirectoryRecord :=
  { disk_number := zip64.disk_number
    disk_number_start_of_cd := zip64.disk_number_start_of_cd
    num_entries_in_directory_on_disk := zip64.num_entries_in_directory_on_disk
    num_entries_in_directory := zip64.num_entries_in_directory
    directory_size := zip64.directory_size
    offset_of_start_of_directory := zip64.offset_of_start_of_directory }

/-- The streaming central directory reader state (src/base/read/cd.rs
lines 77-91): the counting stream, the absolute offset the reader was
constructed with, and the initial flag suppressing the first signature
read. -/
structure CdReader where
  stream : CountingStream
  offset : Nat
  initial : Bool
  deriving DecidableEq, Repr

/-- The result of one CentralDirectoryReader::next call (src/base/read/cd.rs
lines 15-19): either a central directory entry or the end-of-central-directory
record with the archive comment. -/
inductive CdEntry where
  | centralDirectoryEntry (e : CentralDirectoryEntry) : CdEntry
  | endOfCentralDirectoryRecord (record : CombinedCentralDirectoryRecord) (comment : ZipString) : CdEntry
  deriving DecidableEq, Repr

/-- The shared record-reading tail of CentralDirectoryReader::next
(src/base/read/cd.rs lines 173-224): read the 42-byte record, the filename
and extra-field blobs, parse the extra fields against the header, and build
the reconciled entry. -/
def cdReadRecord (st : CountingStream) : Except ZipError (CentralDirectoryEntry × CountingStream) :=
  match creadExact st 42 with
  | .error e => .error e
  | .ok (hbytes, st) =>
    let header := centralDirectoryRecordFromBytes hbytes
    let (filename_basic, st) := creadBytes st header.file_name_length
    let (extra_field, st) := creadBytes st header.extra_field_length
    match parse_extra_fields extra_field header.uncompressed_size header.compressed_size
        (some header.lh_offset) (some header.disk_start) with
    | .error e => .error e
    | .ok extra_fields => .ok (cdEntryFrom header filename_basic extra_fields, st)

/-- CentralDirectoryReader::next (src/base/read/cd.rs lines 98-225): on the
initial call the already-consumed CDH signature is skipped; otherwise the
4-byte signature is read and dispatched on.  The ZIP64 EOCDR branch parses
the 52-byte record, requires the locator, cross-checks its relative offset
against the absolute position at which the ZIP64 EOCDR signature was
observed, then requires an EOCDR and returns the merged record with the
EOCDR comment. -/
def cdNext (r : CdReader) : Except ZipError (CdEntry × CdReader) :=
  if r.initial then
    match cdReadRecord r.stream with
    | .error e => .error e
    | .ok (e, st) => .ok (.centralDirectoryEntry e, ⟨st, r.offset, false⟩)
  else
    match creadExact r.stream 4 with
    | .error e => .error e
    | .ok (sig_bytes, st) =>
      let signature := leNum sig_bytes
      let offset := r.offset + st.bytes
      if signature = CDH_SIGNATURE then
        match cdReadRecord st with
        | .error e => .error e
        | .ok (e, st) => .ok (.centralDirectoryEntry e, ⟨st, r.offset, false⟩)
      else if signature = EOCDR_SIGNATURE then
        match creadExact st 18 with
        | .error e => .error e
        | .ok (ebytes, st) =>
          let eocdr := endOfCentralDirectoryHeaderFromBytes ebytes
          let (comment_bytes, st) := creadBytes st eocdr.file_comm_length
          .ok (.endOfCentralDirectoryRecord (combinedFromEocdr eocdr) ⟨comment_bytes, .utf8⟩,
            ⟨st, r.offset, false⟩)
      else if signature = ZIP64_EOCDR_SIGNATURE then
        match creadExact st 52 with
        | .error e => .error e
        | .ok (zbytes, st) =>
          let zip64_eocdr := zip64EndOfCentralDirectoryRecordFromBytes zbytes
          match creadExact st 4 with
          | .error e => .error e
          | .ok (lsig, st) =>
            if leNum lsig ≠ ZIP64_EOCDL_SIGNATURE then
              .error .missingZip64EndOfCentralDirectoryLocator
            else
              match creadExact st 16 with
              | .error e => .error e
              | .ok (lbytes, st) =>
                let zip64_eocdl := zip64EndOfCentralDirectoryLocatorFromBytes lbytes
                if zip64_eocdl.relative_offset ≠ offset then
                  .error (.invalidZip64EndOfCentralDirectoryLocatorOffset zip64_eocdl.relative_offset offset)
                else
                  match creadExact st 4 with
                  | .error e => .error e
                  | .ok (sig2, st) =>
                    if leNum sig2 ≠ EOCDR_SIGNATURE then
                      .error (.unexpectedHeader (leNum sig2) EOCDR_SIGNATURE)
                    else
                      match creadExact st 18 with
                      | .error e => .error e
                      | .ok (ebytes, st) =>
                        let eocdr := endOfCentralDirectoryHeaderFromBytes ebytes
                        let (comment_bytes, st) := creadBytes st eocdr.file_comm_length
                        .ok (.endOfCentralDirectoryRecord (combinedCombine eocdr zip64_eocdr)
                          ⟨comment_bytes, .utf8⟩, ⟨st, r.offset, false⟩)
      else
        .error (.unexpectedHeader signature CDH_SIGNATURE)

/-- The 32-bit data descriptor (src/spec/data_descriptor.rs). -/
structure DataDescriptor where
  crc : Nat
  compressed_size : Nat
  uncompressed_size : Nat
  deriving DecidableEq, Repr

/-- The ZIP64 data descriptor (src/spec/data_descriptor.rs). -/
structure Zip64DataDescriptor where
  crc : Nat
  compressed_size : Nat
  uncompressed_size : Nat
  deriving DecidableEq, Repr

/-- DataDescriptor::from_reader (src/spec/parse.rs lines 163-188): read 12
bytes; when the first 4 equal the optional signature, read 4 more and decode
past the signature, otherwise the 12 bytes are the descriptor itself.
Returns the descriptor, the number of bytes consumed and the remaining
stream. -/
def data_descriptor_from_reader (s : List Nat) : Except ZipError (DataDescriptor × Nat × List Nat) :=
  if DATA_DESCRIPTOR_LENGTH ≤ s.length then
    let descriptor := s.take DATA_DESCRIPTOR_LENGTH
    if descriptor.take SIGNATURE_LENGTH = DATA_DESCRIPTOR_SIGNATURE_BYTES then
      if DATA_DESCRIPTOR_LENGTH + SIGNATURE_LENGTH ≤ s.length then
        let tail := (s.drop DATA_DESCRIPTOR_LENGTH).take SIGNATURE_LENGTH
        .ok (⟨sliceLe descriptor 4 4, sliceLe descriptor 8 4, sliceLe tail 0 4⟩,
          DATA_DESCRIPTOR_LENGTH + SIGNATURE_LENGTH, s.drop (DATA_DESCRIPTOR_LENGTH + SIGNATURE_LENGTH))
      else .error .ioError
    else
      .ok (⟨sliceLe descriptor 0 4, sliceLe descriptor 4 4, sliceLe descriptor 8 4⟩,
        DATA_DESCRIPTOR_LENGTH, s.drop DATA_DESCRIPTOR_LENGTH)
  else .error .ioError

/-- Zip64DataDescriptor::from_reader (src/spec/parse.rs lines 202-232): read 4
bytes; when they equal the optional signature, read the 20-byte body,
otherwise treat them as the CRC and read the remaining 16 bytes.  Returns
the descriptor, the number of bytes consumed and the remaining stream. -/
def zip64_data_descriptor_from_reader (s : List Nat) : Except ZipError (Zip64DataDescriptor × Nat × List Nat) :=
  if SIGNATURE_LENGTH ≤ s.length then
    let signature := s.take SIGNATURE_LENGTH
    if signature = DATA_DESCRIPTOR_SIGNATURE_BYTES then
      if SIGNATURE_LENGTH + ZIP64_DATA_DESCRIPTOR_LENGTH ≤ s.length then
        let descriptor := (s.drop SIGNATURE_LENGTH).take ZIP64_DATA_DESCRIPTOR_LENGTH
        .ok (⟨sliceLe descriptor 0 4, sliceLe descriptor 4 8, sliceLe descriptor 12 8⟩,
          SIGNATURE_LENGTH + ZIP64_DATA_DESCRIPTOR_LENGTH,
          s.drop (SIGNATURE_LENGTH + ZIP64_DATA_DESCRIPTOR_LENGTH))
      else .error .ioError
    else
      if SIGNATURE_LENGTH + (ZIP64_DATA_DESCRIPTOR_LENGTH - SIGNATURE_LENGTH) ≤ s.length then
        let descriptor := (s.drop SIGNATURE_LENGTH).take (ZIP64_DATA_DESCRIPTOR_LENGTH - SIGNATURE_LENGTH)
        .ok (⟨leNum signature, sliceLe descriptor 0 8, sliceLe descriptor 8 8⟩,
          SIGNATURE_LENGTH + (ZIP64_DATA_DESCRIPTOR_LENGTH - SIGNATURE_LENGTH),
          s.drop (SIGNATURE_LENGTH + (ZIP64_DATA_DESCRIPTOR_LENGTH - SIGNATURE_LENGTH)))
      else .error .ioError
  else .error .ioError

/-- consume_data_descriptor (src/base/read/stream.rs lines 241-251): read 12
bytes; when the first 4 equal the optional signature, read 4 further bytes.
Returns the number of bytes consumed and the remaining stream. -/
def consume_data_descriptor (s : List Nat) : Except ZipError (Nat × List Nat) :=
  if DATA_DESCRIPTOR_LENGTH ≤ s.length then
    let descriptor := s.take DATA_DESCRIPTOR_LENGTH
    if descriptor.take SIGNATURE_LENGTH = DATA_DESCRIPTOR_SIGNATURE_BYTES then
      if DATA_DESCRIPTOR_LENGTH + SIGNATURE_LENGTH ≤ s.length then
        .ok (DATA_DESCRIPTOR_LENGTH + SIGNATURE_LENGTH, s.drop (DATA_DESCRIPTOR_LENGTH + SIGNATURE_LENGTH))
      else .error .ioError
    else .ok (DATA_DESCRIPTOR_LENGTH, s.drop DATA_DESCRIPTOR_LENGTH)
  else .error .ioError

/-- The Reading state of the streaming entry reader (src/base/read/stream.rs
lines 134, 197-239).  Modelled from the spec where the ZipEntryReader
internals (src/base/read/io/entry.rs, not under src/) are concerned: the
decompressed entry body still unread by the caller is carried as the body
list, and the stream positioned after the body (as exposed by into_inner) as
the inner list.  The bool mirrors the has-data-descriptor flag stored by
next_without_entry and next_with_entry. -/
structure ReadingState where
  body : List Nat
  has_descriptor : Bool
  inner : List Nat
  deriving DecidableEq, Repr

/-- ZipFileReader::done (src/base/read/stream.rs lines 212-225): a one-byte
read of the entry body must deliver nothing, otherwise EOFNotReached; then
the trailing data descriptor is consumed when the entry declared one, and the
Ready reader owning the remaining stream is returned. -/
def zipFileReaderDone (r : ReadingState) : Except ZipError (List Nat) :=
  if r.body.length ≠ 0 then .error .eofNotReached
  else if r.has_descriptor then do
    let (_, rest) ← consume_data_descriptor r.inner
    .ok rest
  else .ok r.inner

/-- ZipFileReader::skip (src/base/read/stream.rs lines 228-238): bounded reads
drain the entry body to EOF, then the trailing data descriptor is consumed
when the entry declared one, and the Ready reader owning the remaining
stream is returned. -/
def zipFileReaderSkip (r : ReadingState) : Except ZipError (List Nat) :=
  if r.has_descriptor then do
    let (_, rest) ← consume_data_descriptor r.inner
    .ok rest
  else .ok r.inner

/-- The byte-counting adapter over its inner source (src/base/read/counting.rs
lines 10-30, src/base/read/stream.rs lines 73-93): the inner source, modelled
by the bytes it still has to deliver, and the bytes_read counter. -/
structure Counting where
  inner : List Nat
  bytes : Nat
  deriving DecidableEq, Repr

/-- Counting::new (src/base/read/counting.rs lines 16-19): wrap an inner
source with the counter at zero. -/
def Counting.new (inner : List Nat) : Counting :=
  ⟨inner, 0⟩

/-- A read through the counting adapter (src/base/read/counting.rs lines
32-52): the inner source delivers some bytes (at most the requested count,
at most what it still has; the delivered parameter models how many the inner
read chose to return this time), the adapter passes them through unchanged
and adds exactly their number to the counter. -/
def Counting.readOp (c : Counting) (requested delivered : Nat) : List Nat × Counting :=
  let n := min delivered (min requested c.inner.length)
  (c.inner.take n, ⟨c.inner.drop n, c.bytes + n⟩)

/-- A consume on the buffered variant of the counting adapter
(src/base/read/counting.rs lines 54-65): the counter advances by exactly the
consumed amount. -/
def Counting.consumeOp (c : Counting) (amt : Nat) : Counting :=
  ⟨c.inner.drop amt, c.bytes + amt⟩

/-- An operation against the counting adapter: a read (with the bytes the
inner source chose to deliver) or a buffered consume. -/
inductive CountingOp where
  | read (requested delivered : Nat) : CountingOp
  | consume (amt : Nat) : CountingOp
  deriving DecidableEq, Repr

/-- Run a sequence of operations against the counting adapter. -/
def Counting.run (c : Counting) : List CountingOp → Counting
  | [] => c
  | .read requested delivered :: ops => Counting.run (c.readOp requested delivered).2 ops
  | .consume amt :: ops => Counting.run (c.consumeOp amt) ops

/-- The read_to_end loop over a take(limit) adapter delivers exactly the first
limit bytes of the source (or all of it when shorter), for any sufficient
fuel. -/
theorem readToEndLoop_eq_take (fuel : Nat) : ∀ (limit : Nat) (s : List Nat),
    s.length ≤ fuel → readToEndLoop fuel limit s = s.take limit := by
  induction fuel with
  | zero =>
    intro limit s h
    have hs : s = [] := List.length_eq_zero.mp (Nat.le_zero.mp h)
    subst hs
    simp [readToEndLoop]
  | succ fuel ih =>
    intro limit s h
    rw [readToEndLoop]
    by_cases h0 : min limit s.length = 0
    · rcases Nat.min_eq_zero_iff.mp h0 with h1 | h1
      · simp [h0, h1]
      · have hs : s = [] := List.length_eq_zero.mp h1
        subst hs
        simp [h0]
    · simp only [h0, if_neg, takeRead]
      have hpos : 1 ≤ min limit s.length := Nat.one_le_iff_ne_zero.mpr h0
      have hn1 : 1 ≤ min 32 (min limit s.length) := by omega
      have hle : min 32 (min limit s.length) ≤ limit := by omega
      rw [ih (limit - min 32 (min limit s.length)) (s.drop (min 32 (min limit s.length)))
        (by simp [List.length_drop]; omega)]
      conv_rhs => rw [show limit = min 32 (min limit s.length) + (limit - min 32 (min limit s.length)) by omega]
      rw [List.take_add]
      simp

/-- read_bytes has take semantics: it delivers the first length bytes of the
source, short when the source ends early. -/
theorem read_bytes_eq_take (s : List Nat) (length : Nat) : read_bytes s length = s.take length :=
  readToEndLoop_eq_take s.length length s (Nat.le_refl _)

/-- creadBytes in closed form: the delivered chunk is the take-prefix and the
counter advances by its length. -/
theorem creadBytes_eq (st : CountingStream) (n : Nat) :
    creadBytes st n = (st.data.take n, ⟨st.data.drop n, st.bytes + (st.data.take n).length⟩) := by
  unfold creadBytes
  rw [read_bytes_eq_take]
  refine Prod.ext rfl (CountingStream.mk.injEq .. ▸ ?_)
  constructor
  · rw [List.length_take]
    by_cases h : n ≤ st.data.length
    · rw [Nat.min_eq_left h]
    · rw [List.drop_eq_nil_of_le (by omega), List.drop_eq_nil_of_le (by omega)]
  · rfl

/-- Claim C9: for every requested length N, the variable-length byte reader
used for filenames, extra fields and comments (read_bytes, and read_string
built on it) returns min(N, bytes available before EOF) bytes; a source that
ends before N bytes yields a short result without an I/O error, so a
truncated filename, extra-field or comment blob is silently accepted at this
layer. -/
theorem read_bytes_short_read_is_ok (s : List Nat) (n : Nat) (encoding : StringEncoding) :
    read_bytes s n = s.take n ∧
    (read_bytes s n).length = min n s.length ∧
    (s.length ≤ n → read_bytes s n = s) ∧
    read_string s n encoding = ⟨s.take n, encoding⟩ := by
  refine ⟨read_bytes_eq_take s n, ?_, ?_, ?_⟩
  · rw [read_bytes_eq_take, List.length_take]
  · intro h
    rw [read_bytes_eq_take, List.take_of_length_le h]
  · unfold read_string
    rw [read_bytes_eq_take]

/-- Witness for C9: a 3-byte source asked for 5 bytes delivers the 3 bytes as
a short successful read. -/
theorem read_bytes_short_read_is_ok_witness :
    read_bytes [1, 2, 3] 5 = [1, 2, 3] ∧ (read_bytes [1, 2, 3] 5).length = min 5 3 := by
  have h := read_bytes_short_read_is_ok [1, 2, 3] 5 .utf8
  exact ⟨h.2.2.1 (by decide), h.2.1⟩

/-- Claim C10: for every extra-field blob whose total length leaves between 1
and 3 bytes after the last completely parsed TLV record, parse_extra_fields
returns Ok and silently discards those trailing bytes: the loop only
continues while at least 4 bytes (a full header-id plus data-size prefix)
remain, so a truncated final TLV header is neither parsed nor reported as an
error. -/
theorem parse_extra_fields_discards_short_trailing_bytes :
    (∀ (hu hc : Nat) (ho hd : Option Nat) (fuel : Nat) (rem : List Nat) (acc : List ExtraField),
      1 ≤ rem.length → rem.length ≤ 3 → parseLoop hu hc ho hd fuel rem acc = .ok acc) ∧
    parse_extra_fields ([0x05, 0x00, 0x01, 0x00, 0x42] ++ [9, 9, 9]) 0 0 none none =
      .ok [.unknown 5 1 [0x42]] := by
  constructor
  · intro hu hc ho hd fuel rem acc h1 h3
    match fuel with
    | 0 => rfl
    | fuel + 1 =>
      rw [parseLoop]
      rw [if_neg (by omega)]
  · rfl

/-- Witness for C10: the three bytes left after the single complete TLV record
of the blob above are dropped by the loop. -/
theorem parse_extra_fields_discards_short_trailing_bytes_witness :
    parseLoop 0 0 none none 3 [9, 9, 9] [.unknown 5 1 [0x42]] = .ok [.unknown 5 1 [0x42]] :=
  parse_extra_fields_discards_short_trailing_bytes.1 0 0 none none 3 [9, 9, 9]
    [.unknown 5 1 [0x42]] (by decide) (by decide)

/-- Claim C8: for every sequence of operations on the counting adapter,
bytes_read starts at 0, never decreases, and after every successful read it
increases by exactly the number of bytes that read returned (and after every
consume on the buffered variant, by exactly the consumed amount); the bytes
delivered to the caller are exactly those delivered by the inner source. -/
theorem counting_bytes_read_invariants :
    (∀ d : List Nat, (Counting.new d).bytes = 0) ∧
    (∀ (c : Counting) (requested delivered : Nat),
      ((c.readOp requested delivered).2).bytes = c.bytes + ((c.readOp requested delivered).1).length ∧
      (c.readOp requested delivered).1 ++ ((c.readOp requested delivered).2).inner = c.inner) ∧
    (∀ (c : Counting) (amt : Nat), (c.consumeOp amt).bytes = c.bytes + amt) ∧
    (∀ (c : Counting) (ops : List CountingOp), c.bytes ≤ (Counting.run c ops).bytes) := by
  refine ⟨fun d => rfl, fun c requested delivered => ⟨?_, ?_⟩, fun c amt => rfl, ?_⟩
  · simp [Counting.readOp, List.length_take]
  · simp [Counting.readOp]
  · intro c ops
    induction ops generalizing c with
    | nil => exact Nat.le_refl _
    | cons op ops ih =>
      match op with
      | .read requested delivered =>
        refine Nat.le_trans ?_ (ih (c.readOp requested delivered).2)
        simp [Counting.readOp]
      | .consume amt =>
        refine Nat.le_trans ?_ (ih (c.consumeOp amt))
        simp [Counting.consumeOp]

/-- Claim C1: for every ZIP64 extended-information extra field body and every
owning header, the decoder reads the candidate fields in the fixed order
(uncompressed-size u64, compressed-size u64, local-header-offset u64,
disk-start u32), reading each one only if the corresponding owning-header
field equals its sentinel (0xFFFFFFFF for the u32 fields, 0xFFFF for
disk-start) and enough bytes (8, or 4 for disk-start) remain in the body;
fields whose header counterpart is not the sentinel are left absent.  The
offsets n1, n2, n3 name the cursor positions after each conditional read;
when the reads consume the whole body the decoder succeeds with exactly
these fields (the leftover and fallback behaviour is settled separately). -/
theorem zip64_conditional_field_reads (hu hc : Nat) (ho hd : Option Nat) (data : List Nat)
    (n1 n2 n3 : Nat)
    (hn1 : n1 = if hu = NON_ZIP64_MAX_SIZE ∧ 8 ≤ data.length then 8 else 0)
    (hn2 : n2 = n1 + if hc = NON_ZIP64_MAX_SIZE ∧ n1 + 8 ≤ data.length then 8 else 0)
    (hn3 : n3 = n2 + if ho = some NON_ZIP64_MAX_SIZE ∧ n2 + 8 ≤ data.length then 8 else 0) :
    ((zip64Fields hu hc ho hd data).1.uncompressed_size =
      if hu = NON_ZIP64_MAX_SIZE ∧ 8 ≤ data.length then some (sliceLe data 0 8) else none) ∧
    ((zip64Fields hu hc ho hd data).1.compressed_size =
      if hc = NON_ZIP64_MAX_SIZE ∧ n1 + 8 ≤ data.length then some (sliceLe data n1 8) else none) ∧
    ((zip64Fields hu hc ho hd data).1.relative_header_offset =
      if ho = some NON_ZIP64_MAX_SIZE ∧ n2 + 8 ≤ data.length then some (sliceLe data n2 8) else none) ∧
    ((zip64Fields hu hc ho hd data).1.disk_start_number =
      if hd = some 0xFFFF ∧ n3 + 4 ≤ data.length then some (sliceLe data n3 4) else none) ∧
    ((zip64Fields hu hc ho hd data).2 =
      n3 + if hd = some 0xFFFF ∧ n3 + 4 ≤ data.length then 4 else 0) ∧
    ((zip64Fields hu hc ho hd data).2 = data.length →
      zip64_extended_information_field_from_bytes hu hc ho hd data =
        .ok (zip64Fields hu hc ho hd data).1) := by
  subst hn1 hn2 hn3
  unfold zip64Fields
  simp only []
  refine ⟨?_, ?_, ?_, ?_, ?_, ?_⟩
  · split_ifs <;> simp_all
  · split_ifs <;> simp_all
  · split_ifs <;> simp_all
  · split_ifs <;> simp_all
  · split_ifs <;> simp_all
  · intro hlen
    unfold zip64_extended_information_field_from_bytes
    simp only [zip64Fields] at hlen ⊢
    rw [if_neg (by omega)]

/-- Witness for C1: a body holding a promoted uncompressed size and a promoted
disk start (the header requesting exactly those) decodes to those two fields,
and the decoder succeeds because the body is fully consumed. -/
theorem zip64_conditional_field_reads_witness :
    (zip64Fields 0xFFFFFFFF 3 none (some 0xFFFF) [1, 0, 0, 0, 0, 0, 0, 0, 2, 0, 0, 0]).1.uncompressed_size =
      some 1 ∧
    (zip64Fields 0xFFFFFFFF 3 none (some 0xFFFF) [1, 0, 0, 0, 0, 0, 0, 0, 2, 0, 0, 0]).1.disk_start_number =
      some 2 ∧
    zip64_extended_information_field_from_bytes 0xFFFFFFFF 3 none (some 0xFFFF)
        [1, 0, 0, 0, 0, 0, 0, 0, 2, 0, 0, 0] =
      .ok (zip64Fields 0xFFFFFFFF 3 none (some 0xFFFF) [1, 0, 0, 0, 0, 0, 0, 0, 2, 0, 0, 0]).1 := by
  have h := zip64_conditional_field_reads 0xFFFFFFFF 3 none (some 0xFFFF)
    [1, 0, 0, 0, 0, 0, 0, 0, 2, 0, 0, 0] 8 8 8 (by decide) (by decide) (by decide)
  refine ⟨?_, ?_, h.2.2.2.2.2 (by decide)⟩
  · rw [h.1]
    decide
  · rw [h.2.2.2.1]
    decide

/-- Counterexample to C3: a 16-byte body of a header whose sizes are not
sentinels and whose local-header-offset field is provided but is 9 (not the
sentinel, so no offset promotion is requested, and no disk promotion is
requested).  The body encodes exactly the header sizes (5, 7) widened, zero
bytes were consumed, and L = 16, so the claim requires the bug-compatible
success; the code instead demands that the offset and disk-start header
fields be absent altogether and reports Zip64ExtendedInformationFieldTooLong
with expected 16, actual 0. -/
theorem zip64_fallback_rejects_provided_offset :
    zip64_extended_information_field_from_bytes 5 7 (some 9) none
        [5, 0, 0, 0, 0, 0, 0, 0, 7, 0, 0, 0, 0, 0, 0, 0] =
      .error (.zip64ExtendedInformationFieldTooLong 16 0) ∧
    (zip64Fields 5 7 (some 9) none [5, 0, 0, 0, 0, 0, 0, 0, 7, 0, 0, 0, 0, 0, 0, 0]).2 = 0 ∧
    sliceLe [5, 0, 0, 0, 0, 0, 0, 0, 7, 0, 0, 0, 0, 0, 0, 0] 0 8 = 5 ∧
    sliceLe [5, 0, 0, 0, 0, 0, 0, 0, 7, 0, 0, 0, 0, 0, 0, 0] 8 8 = 7 ∧
    some (9 : Nat) ≠ some NON_ZIP64_MAX_SIZE := by
  refine ⟨by rfl, by rfl, by rfl, by rfl, by decide⟩

/-- Claim C3 as amended: when the conditional decoding consumes a number of
bytes different from the body length L, the decoder returns the 16 bytes
decoded as (uncompressed u64, compressed u64) exactly when L = 16, zero bytes
were consumed, both values equal the owning header u32 values widened, and
the offset and disk-start header fields were not provided at all (the
original claim only required that no offset or disk promotion was requested);
in every other leftover case it fails with
Zip64ExtendedInformationFieldTooLong carrying expected = L and actual = bytes
consumed. -/
theorem zip64_leftover_fallback (hu hc : Nat) (ho hd : Option Nat) (data : List Nat)
    (hleft : (zip64Fields hu hc ho hd data).2 ≠ data.length) :
    zip64_extended_information_field_from_bytes hu hc ho hd data =
      if (zip64Fields hu hc ho hd data).2 = 0 ∧ data.length = 16 ∧ sliceLe data 0 8 = hu ∧
          sliceLe data 8 8 = hc ∧ ho = none ∧ hd = none then
        .ok ⟨some (sliceLe data 0 8), some (sliceLe data 8 8), none, none⟩
      else .error (.zip64ExtendedInformationFieldTooLong data.length (zip64Fields hu hc ho hd data).2) := by
  unfold zip64_extended_information_field_from_bytes
  simp only []
  rw [if_pos hleft]
  by_cases h0 : (zip64Fields hu hc ho hd data).2 = 0 ∧ data.length = 16 ∧ sliceLe data 0 8 = hu ∧
      sliceLe data 8 8 = hc ∧ ho = none ∧ hd = none
  · obtain ⟨hz, hL, hsu, hsc, hho, hhd⟩ := h0
    rw [if_pos ⟨hz, hL⟩, if_pos ⟨hsu, hsc, hho, hhd⟩,
      if_pos ⟨hz, hL, hsu, hsc, hho, hhd⟩]
  · rw [if_neg h0]
    by_cases h1 : (zip64Fields hu hc ho hd data).2 = 0 ∧ data.length = 16
    · rw [if_pos h1, if_neg (fun hin => h0 ⟨h1.1, h1.2, hin.1, hin.2.1, hin.2.2.1, hin.2.2.2⟩)]
    · rw [if_neg h1]

/-- Witness for C3 (amended): the same 16-byte body accepted when the offset
and disk-start header fields are absent. -/
theorem zip64_leftover_fallback_witness :
    zip64_extended_information_field_from_bytes 5 7 none none
        [5, 0, 0, 0, 0, 0, 0, 0, 7, 0, 0, 0, 0, 0, 0, 0] =
      .ok ⟨some 5, some 7, none, none⟩ := by
  have h := zip64_leftover_fallback 5 7 none none
    [5, 0, 0, 0, 0, 0, 0, 0, 7, 0, 0, 0, 0, 0, 0, 0] (by decide)
  rw [h]
  rfl

/-- Counterexample to C2: a central-directory record whose 16-bit disk-start
field is the sentinel 0xFFFF and whose ZIP64 extra field carries a disk-start
slot of 5.  The claim requires a reconciled disk-start equal to 5; the entry
produced by the CD reader has no reconciled disk-start at all — its only
disk-start datum is the raw header field, still 0xFFFF, and none of its
reconciled 64-bit values equals 5. -/
theorem cd_entry_disk_start_not_reconciled :
    (match cdNext ⟨⟨[0, 0, 0, 0, 0, 0, 0, 0, 0, 0, 0, 0, 0, 0, 0, 0,
        3, 0, 0, 0, 7, 0, 0, 0, 0, 0, 8, 0, 0, 0, 0xFF, 0xFF, 0, 0, 0, 0, 0, 0,
        2, 0, 0, 0, 1, 0, 4, 0, 5, 0, 0, 0], 0⟩, 0, true⟩ with
      | .ok (.centralDirectoryEntry e, _) =>
          some (e.compressed_size, e.uncompressed_size, e.lh_offset, e.header.disk_start)
      | _ => none) = some (3, 7, 2, 0xFFFF) ∧
    (0xFFFF : Nat) ≠ 5 ∧ (3 : Nat) ≠ 5 ∧ (7 : Nat) ≠ 5 ∧ (2 : Nat) ≠ 5 := by
  exact ⟨by rfl, by decide, by decide, by decide, by decide⟩

/-- Claim C2 as amended: for every central-directory entry produced by the CD
reader, if the 32-bit compressed-size is not the sentinel 0xFFFFFFFF the
reconciled u64 equals it widened; if it is the sentinel and a ZIP64
extended-information extra field with a compressed-size slot is present, the
reconciled u64 equals that slot.  The same holds for uncompressed-size and
local-header-offset.  Disk-start is not reconciled: the entry keeps only the
raw 16-bit header value (the original claim also asserted a reconciled
disk-start). -/
theorem cd_entry_zip64_reconciliation (header : CentralDirectoryRecord)
    (filename_basic : List Nat) (extra_fields : List ExtraField) :
    ((cdEntryFrom header filename_basic extra_fields).header = header) ∧
    (header.compressed_size ≠ NON_ZIP64_MAX_SIZE →
      (cdEntryFrom header filename_basic extra_fields).compressed_size = header.compressed_size) ∧
    (∀ z v, get_zip64_extra_field extra_fields = some z → z.compressed_size = some v →
      header.compressed_size = NON_ZIP64_MAX_SIZE →
      (cdEntryFrom header filename_basic extra_fields).compressed_size = v) ∧
    (header.uncompressed_size ≠ NON_ZIP64_MAX_SIZE →
      (cdEntryFrom header filename_basic extra_fields).uncompressed_size = header.uncompressed_size) ∧
    (∀ z v, get_zip64_extra_field extra_fields = some z → z.uncompressed_size = some v →
      header.uncompressed_size = NON_ZIP64_MAX_SIZE →
      (cdEntryFrom header filename_basic extra_fields).uncompressed_size = v) ∧
    (header.lh_offset ≠ NON_ZIP64_MAX_SIZE →
      (cdEntryFrom header filename_basic extra_fields).lh_offset = header.lh_offset) ∧
    (∀ z v, get_zip64_extra_field extra_fields = some z → z.relative_header_offset = some v →
      header.lh_offset = NON_ZIP64_MAX_SIZE →
      (cdEntryFrom header filename_basic extra_fields).lh_offset = v) := by
  unfold cdEntryFrom
  refine ⟨rfl, ?_, ?_, ?_, ?_, ?_, ?_⟩
  · intro hne
    cases hzc : (get_zip64_extra_field extra_fields).bind (fun z => z.compressed_size) with
    | none => simp [hzc]
    | some v => simp [hzc, Option.filter, hne]
  · intro z v hz hv hmax
    simp [hz, hv, hmax, Option.filter]
  · intro hne
    cases hzc : (get_zip64_extra_field extra_fields).bind (fun z => z.uncompressed_size) with
    | none => simp [hzc]
    | some v => simp [hzc, Option.filter, hne]
  · intro z v hz hv hmax
    simp [hz, hv, hmax, Option.filter]
  · intro hne
    cases hzc : (get_zip64_extra_field extra_fields).bind (fun z => z.relative_header_offset) with
    | none => simp [hzc]
    | some v => simp [hzc, Option.filter, hne]
  · intro z v hz hv hmax
    simp [hz, hv, hmax, Option.filter]

/-- Witness for C2 (amended): a header with sentinel compressed-size and
local-header-offset, non-sentinel uncompressed-size, and a ZIP64 field
carrying slots for the two sentinels. -/
theorem cd_entry_zip64_reconciliation_witness :
    (cdEntryFrom ⟨0, 0, ⟨false, false, false⟩, 0, 0, 0, 0, 0xFFFFFFFF, 7, 0, 0, 0, 0, 0, 0, 0xFFFFFFFF⟩
        [] [.zip64ExtendedInformation ⟨none, some 9, some 11, none⟩]).compressed_size = 9 ∧
    (cdEntryFrom ⟨0, 0, ⟨false, false, false⟩, 0, 0, 0, 0, 0xFFFFFFFF, 7, 0, 0, 0, 0, 0, 0, 0xFFFFFFFF⟩
        [] [.zip64ExtendedInformation ⟨none, some 9, some 11, none⟩]).uncompressed_size = 7 ∧
    (cdEntryFrom ⟨0, 0, ⟨false, false, false⟩, 0, 0, 0, 0, 0xFFFFFFFF, 7, 0, 0, 0, 0, 0, 0, 0xFFFFFFFF⟩
        [] [.zip64ExtendedInformation ⟨none, some 9, some 11, none⟩]).lh_offset = 11 := by
  have h := cd_entry_zip64_reconciliation
    ⟨0, 0, ⟨false, false, false⟩, 0, 0, 0, 0, 0xFFFFFFFF, 7, 0, 0, 0, 0, 0, 0, 0xFFFFFFFF⟩
    [] [.zip64ExtendedInformation ⟨none, some 9, some 11, none⟩]
  exact ⟨h.2.2.1 ⟨none, some 9, some 11, none⟩ 9 rfl rfl rfl,
    h.2.2.2.1 (by decide),
    h.2.2.2.2.2.2 ⟨none, some 9, some 11, none⟩ 11 rfl rfl rfl⟩

/-- Counterexample to C5: a stream holding a signature-prefixed ZIP64 data
descriptor (4 + 20 bytes).  The claim requires the streaming reader to
consume the ZIP64 form (24 bytes, as Zip64DataDescriptor::from_reader does)
when the local header carried a ZIP64 extended-information extra field; the
descriptor consumption used by done and skip takes no notice of any extra
field and always consumes the 32-bit form, here 16 bytes. -/
theorem consume_data_descriptor_ignores_zip64 :
    consume_data_descriptor ([0x50, 0x4B, 0x07, 0x08] ++ List.replicate 20 0) =
      .ok (16, List.replicate 8 0) ∧
    (zip64_data_descriptor_from_reader ([0x50, 0x4B, 0x07, 0x08] ++ List.replicate 20 0)).map
      (fun t => t.2.1) = .ok 24 ∧
    (16 : Nat) ≠ 24 := by
  exact ⟨by rfl, by rfl, by decide⟩

/-- Claim C5 as amended: for every entry that declared flag bit 3, the
descriptor consumed after the body by the streaming reader is always the
32-bit form, regardless of any ZIP64 extended-information extra field on the
local header: the first 4 bytes are read; if they equal 0x08074B50 the
three-u32 descriptor body follows (16 bytes consumed in total), otherwise
those 4 bytes are the CRC32 and the remainder of the 12-byte body follows;
the byte count consumed always coincides with what the 32-bit descriptor
parser consumes. -/
theorem consume_data_descriptor_32bit_form (s : List Nat) :
    ((consume_data_descriptor s).map Prod.fst =
      (data_descriptor_from_reader s).map (fun t => t.2.1)) ∧
    (s.take 4 = DATA_DESCRIPTOR_SIGNATURE_BYTES → 16 ≤ s.length →
      consume_data_descriptor s = .ok (16, s.drop 16)) ∧
    (s.take 4 ≠ DATA_DESCRIPTOR_SIGNATURE_BYTES → 12 ≤ s.length →
      consume_data_descriptor s = .ok (12, s.drop 12)) := by
  have htake : (s.take DATA_DESCRIPTOR_LENGTH).take SIGNATURE_LENGTH = s.take 4 := by
    rw [List.take_take]
    norm_num [SIGNATURE_LENGTH, DATA_DESCRIPTOR_LENGTH]
  refine ⟨?_, ?_, ?_⟩
  · simp only [consume_data_descriptor, data_descriptor_from_reader, htake]
    split_ifs <;> rfl
  · intro hsig hlen
    simp only [consume_data_descriptor, htake]
    rw [if_pos (by unfold DATA_DESCRIPTOR_LENGTH; omega), if_pos hsig,
      if_pos (by unfold DATA_DESCRIPTOR_LENGTH SIGNATURE_LENGTH; omega)]
    rfl
  · intro hsig hlen
    simp only [consume_data_descriptor, htake]
    rw [if_pos (by unfold DATA_DESCRIPTOR_LENGTH; omega), if_neg hsig]
    rfl

/-- Witness for C5 (amended): a signature-prefixed descriptor followed by two
sentinel bytes is consumed as exactly 16 bytes. -/
theorem consume_data_descriptor_32bit_form_witness :
    consume_data_descriptor ([0x50, 0x4B, 0x07, 0x08] ++ List.replicate 12 0 ++ [1, 2]) =
      .ok (16, [1, 2]) := by
  have h := (consume_data_descriptor_32bit_form
    ([0x50, 0x4B, 0x07, 0x08] ++ List.replicate 12 0 ++ [1, 2])).2.1 (by rfl) (by decide)
  rw [h]
  rfl

/-- Claim C6: for every reader in the Reading state, calling done when the
entry body is not at EOF (a one-byte read returns more than 0 bytes) fails
with EOFNotReached and does not transition; calling skip in the same state
drains the body to EOF and succeeds; on success both done and skip consume
the trailing data descriptor if and only if the entry declared bit 3, and
return a Ready reader owning the remaining stream. -/
theorem done_skip_eof_discipline (r : ReadingState) :
    (r.body ≠ [] → zipFileReaderDone r = .error .eofNotReached) ∧
    (r.has_descriptor = false → zipFileReaderSkip r = .ok r.inner ∧
      (r.body = [] → zipFileReaderDone r = .ok r.inner)) ∧
    (r.has_descriptor = true → ∀ n rest, consume_data_descriptor r.inner = .ok (n, rest) →
      zipFileReaderSkip r = .ok rest ∧ (r.body = [] → zipFileReaderDone r = .ok rest)) := by
  refine ⟨?_, ?_, ?_⟩
  · intro hne
    unfold zipFileReaderDone
    rw [if_pos (by simpa [List.length_eq_zero] using hne)]
  · intro hdesc
    constructor
    · unfold zipFileReaderSkip
      rw [hdesc]
      rfl
    · intro hbody
      unfold zipFileReaderDone
      rw [if_neg (by simp [hbody]), hdesc]
      rfl
  · intro hdesc n rest hcons
    constructor
    · unfold zipFileReaderSkip
      rw [hdesc]
      simp only [if_pos rfl, hcons]
      rfl
    · intro hbody
      unfold zipFileReaderDone
      rw [if_neg (by simp [hbody]), hdesc]
      simp only [if_pos rfl, hcons]
      rfl

/-- Witness for C6: a partially-read body makes done fail while skip on an
entry with a descriptor consumes the 12 descriptor bytes and returns the
remaining stream. -/
theorem done_skip_eof_discipline_witness :
    zipFileReaderDone ⟨[1], true, List.replicate 12 0⟩ = .error .eofNotReached ∧
    zipFileReaderSkip ⟨[1], true, List.replicate 12 0⟩ = .ok [] ∧
    zipFileReaderDone ⟨[], true, List.replicate 12 0⟩ = .ok [] := by
  refine ⟨(done_skip_eof_discipline ⟨[1], true, List.replicate 12 0⟩).1 (by decide),
    ((done_skip_eof_discipline ⟨[1], true, List.replicate 12 0⟩).2.2 rfl 12 [] (by rfl)).1,
    ((done_skip_eof_discipline ⟨[], true, List.replicate 12 0⟩).2.2 rfl 12 [] (by rfl)).2 rfl⟩

/-- Claim C7: for every extra-field blob, after each TLV field is decoded the
previously accepted fields are scanned and any repeated header id fails
parsing with DuplicateExtraFieldHeader carrying that id; a TLV record whose
declared data size would extend past the end of the blob fails with
InvalidExtraFieldHeader carrying the declared size; and the two-entry blob
01 00 08 00 (8 bytes) 01 00 08 00 (8 bytes), parsed for a header that
requested size promotion, fails with DuplicateExtraFieldHeader 1. -/
theorem parse_extra_fields_guards :
    (∀ (hu hc : Nat) (ho hd : Option Nat) (fuel : Nat) (rem : List Nat) (acc : List ExtraField)
      (ef : ExtraField),
      4 ≤ rem.length → ¬rem.length < 4 + sliceLe rem 2 2 →
      extra_field_from_bytes (sliceLe rem 0 2) (sliceLe rem 2 2)
        ((rem.drop 4).take (sliceLe rem 2 2)) hu hc ho hd = .ok ef →
      acc.any (fun seen => seen.header_id = ef.header_id) →
      parseLoop hu hc ho hd (fuel + 1) rem acc =
        .error (.duplicateExtraFieldHeader (sliceLe rem 0 2))) ∧
    (∀ (hu hc : Nat) (ho hd : Option Nat) (fuel : Nat) (rem : List Nat) (acc : List ExtraField),
      4 ≤ rem.length → rem.length < 4 + sliceLe rem 2 2 →
      parseLoop hu hc ho hd (fuel + 1) rem acc =
        .error (.invalidExtraFieldHeader (sliceLe rem 2 2))) ∧
    parse_extra_fields
        [1, 0, 8, 0, 1, 0, 0, 0, 0, 0, 0, 0, 1, 0, 8, 0, 2, 0, 0, 0, 0, 0, 0, 0]
        0xFFFFFFFF 0xFFFFFFFF none none =
      .error (.duplicateExtraFieldHeader 1) := by
  refine ⟨?_, ?_, by rfl⟩
  · intro hu hc ho hd fuel rem acc ef h4 hover hef hdup
    rw [parseLoop, if_pos h4, if_neg hover, hef]
    simp [hdup]
  · intro hu hc ho hd fuel rem acc h4 hover
    rw [parseLoop, if_pos h4, if_pos hover]

/-- Witness for C7: a repeated unknown id 7 is rejected as a duplicate, and a
TLV declaring 5 payload bytes of which only 1 is present is rejected as
invalid. -/
theorem parse_extra_fields_guards_witness :
    parseLoop 0 0 none none 1 [7, 0, 1, 0, 0xAA] [.unknown 7 1 [0xBB]] =
      .error (.duplicateExtraFieldHeader 7) ∧
    parseLoop 0 0 none none 1 [7, 0, 5, 0, 0xAA] [] =
      .error (.invalidExtraFieldHeader 5) := by
  refine ⟨parse_extra_fields_guards.1 0 0 none none 0 [7, 0, 1, 0, 0xAA]
    [.unknown 7 1 [0xBB]] (.unknown 7 1 [0xAA]) (by decide) (by decide) (by rfl) (by decide),
    parse_extra_fields_guards.2.1 0 0 none none 0 [7, 0, 5, 0, 0xAA] [] (by decide) (by decide)⟩

/-- read_exact through the counting adapter on a stream that starts with the
requested bytes delivers exactly those bytes and advances the counter. -/
theorem creadExact_append (pre post : List Nat) (b n : Nat) (h : pre.length = n) :
    creadExact ⟨pre ++ post, b⟩ n = .ok (pre, ⟨post, b + n⟩) := by
  unfold creadExact
  simp only []
  rw [if_pos (by simp [List.length_append]; omega)]
  rw [List.take_left' h, List.drop_left' h]

/-- Claim C4: when the CD reader dispatches on a ZIP64 EOCDR signature, after
parsing the ZIP64 EOCDR an absent locator signature fails with
MissingZip64EndOfCentralDirectoryLocator; a present locator whose
relative_offset differs from the absolute position at which the ZIP64 EOCDR
signature was observed (the construction offset plus the counting adapter
bytes_read just after that signature was consumed) fails with
InvalidZip64EndOfCentralDirectoryLocatorOffset (found, expected); on
agreement the reader requires an EOCDR (any other signature is
UnexpectedHeader) and returns a record merging the ZIP64 EOCDR 64-bit counts
and sizes with the EOCDR comment. -/
theorem cd_zip64_eocdr_locator_check (stream_bytes offset : Nat) (body rest : List Nat)
    (hbody : body.length = 52) :
    (∀ l4 rest2, rest = l4 ++ rest2 → l4.length = 4 → leNum l4 ≠ ZIP64_EOCDL_SIGNATURE →
      cdNext ⟨⟨[0x50, 0x4B, 0x06, 0x06] ++ body ++ rest, stream_bytes⟩, offset, false⟩ =
        .error .missingZip64EndOfCentralDirectoryLocator) ∧
    (∀ lbody rest2, rest = [0x50, 0x4B, 0x06, 0x07] ++ lbody ++ rest2 → lbody.length = 16 →
      sliceLe lbody 4 8 ≠ offset + (stream_bytes + 4) →
      cdNext ⟨⟨[0x50, 0x4B, 0x06, 0x06] ++ body ++ rest, stream_bytes⟩, offset, false⟩ =
        .error (.invalidZip64EndOfCentralDirectoryLocatorOffset (sliceLe lbody 4 8)
          (offset + (stream_bytes + 4)))) ∧
    (∀ lbody s4 rest2, rest = [0x50, 0x4B, 0x06, 0x07] ++ lbody ++ (s4 ++ rest2) →
      lbody.length = 16 → s4.length = 4 →
      sliceLe lbody 4 8 = offset + (stream_bytes + 4) → leNum s4 ≠ EOCDR_SIGNATURE →
      cdNext ⟨⟨[0x50, 0x4B, 0x06, 0x06] ++ body ++ rest, stream_bytes⟩, offset, false⟩ =
        .error (.unexpectedHeader (leNum s4) EOCDR_SIGNATURE)) ∧
    (∀ lbody ebody rest2,
      rest = [0x50, 0x4B, 0x06, 0x07] ++ lbody ++ ([0x50, 0x4B, 0x05, 0x06] ++ (ebody ++ rest2)) →
      lbody.length = 16 → ebody.length = 18 →
      sliceLe lbody 4 8 = offset + (stream_bytes + 4) →
      ∃ st2 : CountingStream,
        cdNext ⟨⟨[0x50, 0x4B, 0x06, 0x06] ++ body ++ rest, stream_bytes⟩, offset, false⟩ =
          .ok (.endOfCentralDirectoryRecord
            (combinedCombine (endOfCentralDirectoryHeaderFromBytes ebody)
              (zip64EndOfCentralDirectoryRecordFromBytes body))
            ⟨rest2.take (sliceLe ebody 16 2), .utf8⟩, ⟨st2, offset, false⟩)) := by
  refine ⟨?_, ?_, ?_, ?_⟩
  · intro l4 rest2 hrest hl4 hsig
    subst hrest
    simp only [cdNext, List.append_assoc,
      creadExact_append [80, 75, 6, 6] (body ++ (l4 ++ rest2)) stream_bytes 4 rfl,
      creadExact_append body (l4 ++ rest2) (stream_bytes + 4) 52 hbody,
      creadExact_append l4 rest2 (stream_bytes + 4 + 52) 4 hl4]
    rw [if_neg (by decide), if_neg (by decide), if_neg (by decide), if_pos (by decide),
      if_pos hsig]
  · intro lbody rest2 hrest hlb hoff
    subst hrest
    simp only [cdNext, List.append_assoc,
      creadExact_append [80, 75, 6, 6] (body ++ ([80, 75, 6, 7] ++ (lbody ++ rest2))) stream_bytes 4 rfl,
      creadExact_append body ([80, 75, 6, 7] ++ (lbody ++ rest2)) (stream_bytes + 4) 52 hbody,
      creadExact_append [80, 75, 6, 7] (lbody ++ rest2) (stream_bytes + 4 + 52) 4 rfl,
      creadExact_append lbody rest2 (stream_bytes + 4 + 52 + 4) 16 hlb,
      zip64EndOfCentralDirectoryLocatorFromBytes]
    rw [if_neg (by decide), if_neg (by decide), if_neg (by decide), if_pos (by decide),
      if_neg (by decide), if_pos hoff]
  · intro lbody s4 rest2 hrest hlb hs4 hoff hsig
    subst hrest
    simp only [cdNext, List.append_assoc,
      creadExact_append [80, 75, 6, 6]
        (body ++ ([80, 75, 6, 7] ++ (lbody ++ (s4 ++ rest2)))) stream_bytes 4 rfl,
      creadExact_append body ([80, 75, 6, 7] ++ (lbody ++ (s4 ++ rest2))) (stream_bytes + 4) 52 hbody,
      creadExact_append [80, 75, 6, 7] (lbody ++ (s4 ++ rest2)) (stream_bytes + 4 + 52) 4 rfl,
      creadExact_append lbody (s4 ++ rest2) (stream_bytes + 4 + 52 + 4) 16 hlb,
      creadExact_append s4 rest2 (stream_bytes + 4 + 52 + 4 + 16) 4 hs4,
      zip64EndOfCentralDirectoryLocatorFromBytes]
    rw [if_neg (by decide), if_neg (by decide), if_neg (by decide), if_pos (by decide),
      if_neg (by decide), if_neg (by simp [hoff]), if_pos hsig]
  · intro lbody ebody rest2 hrest hlb heb hoff
    subst hrest
    simp only [cdNext, List.append_assoc,
      creadExact_append [80, 75, 6, 6]
        (body ++ ([80, 75, 6, 7] ++ (lbody ++ ([80, 75, 5, 6] ++ (ebody ++ rest2)))))
        stream_bytes 4 rfl,
      creadExact_append body ([80, 75, 6, 7] ++ (lbody ++ ([80, 75, 5, 6] ++ (ebody ++ rest2))))
        (stream_bytes + 4) 52 hbody,
      creadExact_append [80, 75, 6, 7] (lbody ++ ([80, 75, 5, 6] ++ (ebody ++ rest2)))
        (stream_bytes + 4 + 52) 4 rfl,
      creadExact_append lbody ([80, 75, 5, 6] ++ (ebody ++ rest2))
        (stream_bytes + 4 + 52 + 4) 16 hlb,
      creadExact_append [80, 75, 5, 6] (ebody ++ rest2) (stream_bytes + 4 + 52 + 4 + 16) 4 rfl,
      creadExact_append ebody rest2 (stream_bytes + 4 + 52 + 4 + 16 + 4) 18 heb,
      zip64EndOfCentralDirectoryLocatorFromBytes, creadBytes_eq]
    rw [if_neg (by decide), if_neg (by decide), if_neg (by decide), if_pos (by decide),
      if_neg (by decide), if_neg (by simp [hoff]), if_neg (by decide)]
    exact ⟨_, rfl⟩

/-- Witness for C4: a ZIP64 EOCDR at absolute offset 4 of the counting stream
(construction offset 0, zero bytes previously read), followed by a locator
whose relative offset is 4 and an EOCDR, yields the merged record. -/
theorem cd_zip64_eocdr_locator_check_witness :
    ∃ st2 : CountingStream,
      cdNext ⟨⟨[0x50, 0x4B, 0x06, 0x06] ++ List.replicate 52 0 ++
          ([0x50, 0x4B, 0x06, 0x07] ++ [0, 0, 0, 0, 4, 0, 0, 0, 0, 0, 0, 0, 1, 0, 0, 0] ++
            ([0x50, 0x4B, 0x05, 0x06] ++ (List.replicate 18 0 ++ []))), 0⟩, 0, false⟩ =
        .ok (.endOfCentralDirectoryRecord ⟨0, 0, 0, 0, 0, 0⟩ ⟨[], .utf8⟩, ⟨st2, 0, false⟩) := by
  obtain ⟨st2, h⟩ := (cd_zip64_eocdr_locator_check 0 0 (List.replicate 52 0) _ (by decide)).2.2.2
    [0, 0, 0, 0, 4, 0, 0, 0, 0, 0, 0, 0, 1, 0, 0, 0] (List.replicate 18 0) [] rfl (by decide)
    (by decide) (by decide)
  exact ⟨st2, by rw [h]; rfl⟩
